import Mathlib

/-!
Shallow embedding of the TruMetraPla column-resolution subsystem
(`src/trumetrapla/column_classifier.py` and `src/trumetrapla/data_loader.py`).

Python floats are modelled by `ℝ` (with `EReal` where the code manipulates
`float("-inf")`); Python exceptions by an explicit `PyError` sum type carried
in `Except`; Python `dict`/`Mapping` values by association lists in insertion
order; Python `None`-able parameters by `Option`.
-/

/-! ### Tokenizer (`column_classifier._TOKEN_RE`, `_tokenize`)

The source tokenizes with the regex `[\wÀ-ÖØ-öø-ÿ]+` (word characters plus
extended Latin-1 letters) and casefolds each token.  The embedding models the
character class over ASCII and the Latin-1 ranges the regex names, and models
`str.casefold` as ASCII/Latin-1 lowercasing (the identity on every other
character), which agrees with Python on all strings the repository handles. -/

def isWordChar (c : Char) : Bool :=
  (('a' ≤ c && c ≤ 'z') || ('A' ≤ c && c ≤ 'Z') || ('0' ≤ c && c ≤ '9') || c = '_'
    || (0xC0 ≤ c.toNat && c.toNat ≤ 0xD6)
    || (0xD8 ≤ c.toNat && c.toNat ≤ 0xF6)
    || (0xF8 ≤ c.toNat && c.toNat ≤ 0xFF))

def casefoldChar (c : Char) : Char :=
  if 'A' ≤ c && c ≤ 'Z' then Char.ofNat (c.toNat + 32)
  else if (0xC0 ≤ c.toNat && c.toNat ≤ 0xD6) || (0xD8 ≤ c.toNat && c.toNat ≤ 0xDE) then
    Char.ofNat (c.toNat + 32)
  else c

/-- Single pass over the characters accumulating the current (reversed,
already casefolded) run of word characters; a non-word character closes the
run.  This computes the casefolded maximal word-character runs of the regex
`findall`, by structural recursion so that proofs can evaluate it. -/
def tokenizeAux (acc : List Char) : List Char → List String
  | [] => if acc = [] then [] else [String.mk acc.reverse]
  | c :: rest =>
    if isWordChar c then tokenizeAux (casefoldChar c :: acc) rest
    else if acc = [] then tokenizeAux [] rest
    else String.mk acc.reverse :: tokenizeAux [] rest

/-- Maximal runs of word characters, each run casefolded (`_tokenize`). -/
def tokenizeChars (l : List Char) : List String :=
  tokenizeAux [] l

def tokenize (text : String) : List String :=
  tokenizeChars text.data

/-- `_flatten_samples`: tokens of all non-empty samples, concatenated. -/
def flattenSamples (samples : Option (List String)) : List String :=
  match samples with
  | none => []
  | some l => l.flatMap (fun s => if s = "" then [] else tokenize s)

/-! ### Python error model

`ColumnMappingError` subclasses `ValueError` in the source.  `configurationError`
is the error kind the specification posits for empty classifier training data;
the source never raises it (it raises a plain `ValueError`). -/

inductive PyError where
  | valueError (msg : String)
  | columnMappingError (msg : String)
  | keyError (key : String)
  | configurationError (msg : String)
deriving DecidableEq, Repr

def PyError.isConfigurationError : PyError → Bool
  | .configurationError _ => true
  | _ => false

/-! ### Naive Bayes classifier (`NaiveBayesColumnClassifier`) -/

/-- `_FieldProfile`: the `Counter` of the source is modelled by the bag of
tokens itself; `token_counts[t] = tokens.count t`, `total_tokens = tokens.length`. -/
structure FieldProfile where
  name : String
  tokens : List String
deriving DecidableEq, Repr

/-- `NaiveBayesColumnClassifier` state after `__init__`: the per-field profiles
in insertion order and `_vocabulary_size`.  (`_log_prior` is recomputed from
`profiles.length`, see `NaiveBayes.logPrior`.) -/
structure NaiveBayes where
  profiles : List (String × FieldProfile)
  vocabularySize : Nat
deriving DecidableEq, Repr

/-- Tokens of all training samples of one field, concatenated
(the loop `for sample in samples: token_counter.update(_tokenize(sample))`). -/
def trainingTokens (samples : List String) : List String :=
  samples.flatMap tokenize

/-- `NaiveBayesColumnClassifier.__init__`.  The training mapping is an
association list with the distinct keys a Python `Mapping` has. -/
def NaiveBayes.init (trainingSamples : List (String × List String)) :
    Except PyError NaiveBayes :=
  if trainingSamples = [] then
    .error (.valueError "training_samples must not be empty")
  else
    let profiles := trainingSamples.map fun p =>
      (p.1, FieldProfile.mk p.1 (trainingTokens p.2))
    let vocabulary := (trainingSamples.flatMap fun p => trainingTokens p.2).dedup
    .ok ⟨profiles, max vocabulary.length 1⟩

noncomputable def NaiveBayes.logPrior (nb : NaiveBayes) : ℝ :=
  Real.log (1 / nb.profiles.length)

/-- Body of `score` once the field profile has been looked up. -/
noncomputable def NaiveBayes.scoreProfile (nb : NaiveBayes) (profile : FieldProfile)
    (header : String) (samples : Option (List String)) : EReal :=
  let tokens := tokenize header ++ flattenSamples samples
  if tokens = [] then ⊥
  else
    ((tokens.foldl
      (fun acc token =>
        acc + Real.log ((profile.tokens.count token + 1 : ℕ) /
          (profile.tokens.length + nb.vocabularySize : ℕ)))
      nb.logPrior : ℝ) : EReal)

/-- `NaiveBayesColumnClassifier.score`; `none` models the `KeyError` a lookup
of an untrained field raises. -/
noncomputable def NaiveBayes.score (nb : NaiveBayes) (field : String)
    (header : String) (samples : Option (List String)) : Option EReal :=
  (nb.profiles.lookup field).map fun profile => nb.scoreProfile profile header samples

/-! ### Heuristic analyzer (`analyse_samples`)

All arithmetic in `analyse_samples` is rational (counts divided by counts), so
the metadata is modelled in `ℚ` and stays fully computable. -/

/-- Digits-with-single-underscores part of a Python float literal
(`digitpart ::= digit (["_"] digit)*`): consumes the longest such run and
returns the rest, or `none` if no leading digit. -/
def pyDigitsRest : List Char → List Char
  | [] => []
  | [c] => if c.isDigit then [] else [c]
  | c :: d :: rest =>
    if c.isDigit then pyDigitsRest (d :: rest)
    else if c = '_' && d.isDigit then pyDigitsRest rest
    else c :: d :: rest

def pyHasLeadingDigit : List Char → Bool
  | c :: _ => c.isDigit
  | [] => false

/-- Exponent suffix `("e"|"E") ["+"|"-"] digitpart` or nothing. -/
def pyExponentOk (l : List Char) : Bool :=
  match l with
  | [] => true
  | e :: rest =>
    (e = 'e' || e = 'E') &&
      (let rest2 := match rest with
        | s :: r => if s = '+' || s = '-' then r else rest
        | [] => rest
      pyHasLeadingDigit rest2 && pyDigitsRest rest2 = [])

/-- Mantissa `digitpart ["." [digitpart]] | "." digitpart`, then exponent. -/
def pyMantissaOk (l : List Char) : Bool :=
  if pyHasLeadingDigit l then
    match pyDigitsRest l with
    | '.' :: rest =>
      if pyHasLeadingDigit rest then pyExponentOk (pyDigitsRest rest)
      else pyExponentOk rest
    | rest => pyExponentOk rest
  else
    match l with
    | '.' :: rest => pyHasLeadingDigit rest && pyDigitsRest rest = []
        || (pyHasLeadingDigit rest && pyExponentOk (pyDigitsRest rest))
    | _ => false

/-- Whether Python `float(text)` succeeds (after the caller already stripped
whitespace): optional sign, then a float literal or `inf`/`infinity`/`nan`. -/
def pyFloatAccepts (text : String) : Bool :=
  let l := text.data
  let body := match l with
    | c :: rest => if c = '+' || c = '-' then rest else l
    | [] => l
  let lowered := String.mk (body.map casefoldChar)
  lowered = "inf" || lowered = "infinity" || lowered = "nan" || pyMantissaOk body

/-- One 1–4 digit group of the date regex. -/
def isDateSep (c : Char) : Bool := c = '-' || c = '/' || c = '.'

/-- Whether the date regex (one to four digits, a separator, one or two
digits, a separator, one to four digits) matches at the head of the character
list, for some choice of group lengths. -/
def dateMatchHere (l : List Char) : Bool :=
  (List.range 4).any fun a =>
    (List.range 2).any fun b =>
      (List.range 4).any fun c =>
        match l.take (a + 1), l.drop (a + 1) with
        | g1, s1 :: r1 =>
          g1.length = a + 1 && g1.all Char.isDigit && isDateSep s1 &&
            (match r1.take (b + 1), r1.drop (b + 1) with
            | g2, s2 :: r2 =>
              g2.length = b + 1 && g2.all Char.isDigit && isDateSep s2 &&
                (let g3 := r2.take (c + 1)
                g3.length = c + 1 && g3.all Char.isDigit)
            | _, [] => false)
        | _, [] => false

/-- `re.search` of the date pattern: a match starting at any position. -/
def dateSearch (l : List Char) : Bool :=
  match l with
  | [] => false
  | _ :: rest => dateMatchHere l || dateSearch rest

/-- Metadata returned by `analyse_samples`. -/
structure SampleMetadata where
  numericRatio : ℚ
  dateLikeRatio : ℚ
  textLength : ℚ
deriving DecidableEq, Repr

/-- `str.strip()`: drop whitespace from both ends. -/
def trimChars (l : List Char) : List Char :=
  ((l.dropWhile Char.isWhitespace).reverse.dropWhile Char.isWhitespace).reverse

/-- A sample that survives `text = str(sample).strip(); if not text: continue`. -/
def sampleText (s : String) : String := String.mk (trimChars s.data)

def isCountedSample (s : String) : Bool := sampleText s ≠ ""

/-- `text.replace(",", ".")`. -/
def commaToDot (s : String) : String :=
  String.mk (s.data.map fun c => if c = ',' then '.' else c)

def isNumericSample (s : String) : Bool :=
  isCountedSample s && pyFloatAccepts (commaToDot (sampleText s))

def isDateLikeSample (s : String) : Bool :=
  isCountedSample s && dateSearch (sampleText s).data

/-- `analyse_samples`. -/
def analyseSamples (samples : Option (List String)) : SampleMetadata :=
  match samples with
  | none => ⟨0, 0, 0⟩
  | some [] => ⟨0, 0, 0⟩
  | some l =>
    let totalSamples : ℕ := Nat.max l.length 1
    { numericRatio := mkRat (l.countP isNumericSample) totalSamples
      dateLikeRatio := mkRat (l.countP isDateLikeSample) totalSamples
      textLength :=
        mkRat ((l.map fun s => if isCountedSample s then (sampleText s).length else 0).sum)
          totalSamples }

/-! ### Column guesser (`ColumnGuesser`) -/

/-- `ColumnGuesser`: holds the classifier. -/
structure ColumnGuesser where
  classifier : NaiveBayes
deriving DecidableEq, Repr

/-- `ColumnGuesser.evaluate` once the field profile has been looked up:
substitute `-1000.0` for a non-finite classifier score, then apply the
field-specific heuristic adjustments. -/
noncomputable def evaluateProfile (nb : NaiveBayes) (profile : FieldProfile)
    (field : String) (header : String) (samples : Option (List String)) : ℝ :=
  let metadata := analyseSamples samples
  let rawScore := nb.scoreProfile profile header samples
  let baseScore : ℝ :=
    if rawScore = ⊥ ∨ rawScore = ⊤ then -1000 else rawScore.toReal
  let numericRatio : ℝ := metadata.numericRatio
  let dateRatio : ℝ := metadata.dateLikeRatio
  if field = "date" then
    baseScore + 2.5 * dateRatio - 1.5 * numericRatio
  else if field = "quantity" ∨ field = "duration_minutes" then
    baseScore + 3.0 * numericRatio - 1.0 * dateRatio
  else
    baseScore + 0.002 * (metadata.textLength : ℝ) - 2.0 * numericRatio

/-- `ColumnGuesser.evaluate`; `none` models the `KeyError` for an untrained
field. -/
noncomputable def ColumnGuesser.evaluate (g : ColumnGuesser) (field : String)
    (header : String) (samples : Option (List String)) : Option ℝ :=
  (g.classifier.profiles.lookup field).map fun profile =>
    evaluateProfile g.classifier profile field header samples

/-- The loop of `ColumnGuesser.guess`, tracking
`(best_column, best_score, second_score)`; `none` models a `KeyError` raised
by `evaluate` inside the loop. -/
noncomputable def guessLoop (ev : String → Option (List String) → Option ℝ) :
    List (String × Option (List String)) → List String →
      Option String × EReal × EReal → Option (Option String × EReal × EReal)
  | [], _, st => some st
  | (header, samples) :: rest, alreadyAssigned, (best, bestScore, secondScore) =>
    if header ∈ alreadyAssigned then
      guessLoop ev rest alreadyAssigned (best, bestScore, secondScore)
    else
      match ev header samples with
      | none => none
      | some score =>
        if (score : EReal) > bestScore then
          guessLoop ev rest alreadyAssigned (some header, (score : EReal), bestScore)
        else if (score : EReal) > secondScore then
          guessLoop ev rest alreadyAssigned (best, bestScore, (score : EReal))
        else
          guessLoop ev rest alreadyAssigned (best, bestScore, secondScore)

/-- `ColumnGuesser.guess`. -/
noncomputable def ColumnGuesser.guess (g : ColumnGuesser) (field : String)
    (columns : List (String × Option (List String))) (alreadyAssigned : List String) :
    Option (Option String × EReal) :=
  (guessLoop (g.evaluate field) columns alreadyAssigned (none, ⊥, ⊥)).map
    fun st =>
      match st with
      | (none, _, _) => (none, (⊥ : EReal))
      | (some bestColumn, bestScore, secondScore) =>
        if bestScore < ((-20 : ℝ) : EReal) ∨ bestScore - secondScore < ((0.75 : ℝ) : EReal) then
          (none, bestScore)
        else
          (some bestColumn, bestScore)

/-- `DEFAULT_TRAINING_DATA`. -/
def DEFAULT_TRAINING_DATA : List (String × List String) :=
  [("date",
    ["data produzione", "giorno commessa", "production date", "day",
     "data registrazione", "2024-01-01", "03/02/2024", "12.02.24"]),
   ("employee",
    ["operatore", "dipendente", "responsabile cella", "worker name", "operator",
     "mario rossi", "team leader"]),
   ("process",
    ["processo", "fase produttiva", "operazione", "fase", "production stage",
     "taglio laser", "assemblaggio"]),
   ("machine",
    ["macchina", "impianto", "postazione", "machine", "equipment", "piegatrice 02"]),
   ("process_type",
    ["tipo processo", "tipologia", "categoria", "process family", "assemblaggio",
     "lavorazione meccanica"]),
   ("quantity",
    ["pezzi", "output", "qta prodotta", "pieces", "numero pezzi", "100", "45"]),
   ("duration_minutes",
    ["durata", "minuti lavorati", "tempo ciclo", "cycle minutes", "tempo totale",
     "89", "123"])]

/-- `build_default_guesser`. -/
def buildDefaultGuesser : Except PyError ColumnGuesser :=
  (NaiveBayes.init DEFAULT_TRAINING_DATA).map ColumnGuesser.mk

/-! ### Data loader column resolution (`data_loader.py`) -/

def REQUIRED_FIELDS : List String :=
  ["date", "employee", "process", "quantity", "duration_minutes"]

def OPTIONAL_FIELDS : List String := ["machine", "process_type"]

def CANONICAL_FIELDS : List String := REQUIRED_FIELDS ++ OPTIONAL_FIELDS

def DEFAULT_COLUMN_ALIASES : List (String × List String) :=
  [("date", ["data", "date", "giorno"]),
   ("employee", ["dipendente", "operatore", "employee"]),
   ("process", ["processo", "fase", "linea", "process"]),
   ("quantity", ["quantità", "pezzi", "pezzi prodotti", "quantity", "pieces"]),
   ("duration_minutes", ["durata (min)", "durata", "minuti", "duration", "minutes"])]

def FIELD_KEYWORDS : List (String × List String) :=
  [("date", ["data", "date", "giorno"]),
   ("employee",
    ["operatore", "dipendente", "addetto", "responsabile", "worker", "employee"]),
   ("process", ["processo", "fase", "linea", "operazione", "process"]),
   ("machine",
    ["macchina", "macchinario", "impianto", "postazione", "machine", "equipment"]),
   ("process_type",
    ["tipo processo", "tipologia", "categoria", "category", "process type"]),
   ("quantity", ["quantita", "quantità", "pezzi", "pieces", "quantity", "output"]),
   ("duration_minutes", ["durata", "min", "minuti", "minutes", "tempo"])]

/-- `_normalize_token`: `value.strip().casefold()`. -/
def normalizeToken (value : String) : String :=
  String.mk ((trimChars value.data).map casefoldChar)

/-- Python's substring test `needle in hay` on normalized header strings. -/
def charsHaveSub : List Char → List Char → Bool
  | [], needle => needle.isPrefixOf []
  | c :: t, needle => needle.isPrefixOf (c :: t) || charsHaveSub t needle

def strContains (hay needle : String) : Bool :=
  charsHaveSub hay.data needle.data

/-- The explicit-mapping step condition of `_resolve_column_name`:
`column_mapping and field in column_mapping` (an absent or empty mapping is
falsy, and lookup on an empty mapping finds nothing). -/
def explicitCandidate (columnMapping : Option (List (String × String)))
    (field : String) : Option String :=
  (columnMapping.getD []).lookup field

/-- `normalized_columns`: Python's dict comprehension keeps the *last* column
for a duplicated normalized key, so the list is reversed before first-match
lookup. -/
def normalizedColumns (availableColumns : List String) : List (String × String) :=
  (availableColumns.map fun column => (normalizeToken column, column)).reverse

/-- The alias exact-match loop of `_resolve_column_name`. -/
def aliasMatch (field : String) (availableColumns : List String)
    (aliases : Option (List (String × List String))) : Option String :=
  let aliasCandidates := (((aliases.getD []).lookup field).getD [])
  aliasCandidates.findSome? fun aliasText =>
    (normalizedColumns availableColumns).lookup (normalizeToken aliasText)

/-- The keyword substring-match loop of `_resolve_column_name`. -/
def keywordMatch (field : String) (availableColumns : List String) : Option String :=
  let keywordMatches := ((FIELD_KEYWORDS.lookup field).getD [])
  availableColumns.findSome? fun column =>
    let normalized := normalizeToken column
    if keywordMatches.any fun keyword =>
        let keywordToken := normalizeToken keyword
        keywordToken ≠ "" && strContains normalized keywordToken
    then some column else none

/-- The message of the explicit-mapping `ColumnMappingError` of
`_resolve_column_name`. -/
def explicitErrorMessage (candidate field : String) : String :=
  "La colonna \x27" ++ candidate ++ "\x27 per il campo \x27" ++ field ++
    "\x27 non esiste nel file"

/-- The message of the final `ColumnMappingError` of `_resolve_column_name`. -/
def unresolvedErrorMessage (field : String) : String :=
  "Impossibile individuare la colonna per il campo \x27" ++ field ++
    "\x27. Specificare \x27column_mapping\x27 o rinominare le intestazioni nel file Excel."

/-- `_resolve_column_name`. -/
def resolveColumnName (field : String) (availableColumns : List String)
    (columnMapping : Option (List (String × String)))
    (aliases : Option (List (String × List String))) : Except PyError String :=
  match explicitCandidate columnMapping field with
  | some candidate =>
    if candidate ∈ availableColumns then .ok candidate
    else .error (.columnMappingError (explicitErrorMessage candidate field))
  | none =>
    match aliasMatch field availableColumns aliases with
    | some column => .ok column
    | none =>
      match keywordMatch field availableColumns with
      | some column => .ok column
      | none => .error (.columnMappingError (unresolvedErrorMessage field))

/-- Python's `{**a, **b}` / `a | b` dict merge on association lists: the keys
of `a` in order with values overridden by `b` where present, then the keys of
`b` absent from `a`. -/
def pyDictUnion {α : Type} (a b : List (String × α)) : List (String × α) :=
  (a.map fun p => (p.1, (b.lookup p.1).getD p.2)) ++
    b.filter fun p => (a.lookup p.1).isNone

/-- `extra_aliases` of `suggest_column_mapping`: the caller-supplied aliases
restricted to canonical fields. -/
def canonicalExtras (aliases : Option (List (String × List String))) :
    List (String × List String) :=
  (aliases.getD []).filter fun p => p.1 ∈ CANONICAL_FIELDS

/-- The alias table `suggest_column_mapping` hands to `_resolve_column_name`:
`_DEFAULT_COLUMN_ALIASES | extra_aliases`. -/
def mergedAliases (aliases : Option (List (String × List String))) :
    List (String × List String) :=
  pyDictUnion DEFAULT_COLUMN_ALIASES (canonicalExtras aliases)

/-- The per-field loop of `suggest_column_mapping`: `except ColumnMappingError`
turns exactly that error kind into a missing-field entry; any other error
propagates. -/
def suggestGo (availableColumns : List String)
    (columnMapping : Option (List (String × String)))
    (merged : List (String × List String)) :
    List String → Except PyError (List (String × String) × List String)
  | [] => .ok ([], [])
  | field :: rest =>
    match resolveColumnName field availableColumns columnMapping (some merged) with
    | .ok column =>
      (suggestGo availableColumns columnMapping merged rest).map
        fun result => ((field, column) :: result.1, result.2)
    | .error (.columnMappingError _) =>
      (suggestGo availableColumns columnMapping merged rest).map
        fun result => (result.1, field :: result.2)
    | .error e => .error e

/-- `suggest_column_mapping`. -/
def suggestColumnMapping (columns : List String)
    (columnMapping : Option (List (String × String)) := none)
    (aliases : Option (List (String × List String)) := none) :
    Except PyError (List (String × String) × List String) :=
  suggestGo columns columnMapping (mergedAliases aliases) CANONICAL_FIELDS

/-! ### Specification-side definitions for the `guess` decision rule

These follow the specification's wording (best score, second-best score,
margin) and are compared with the loop implementation in the theorems below. -/

/-- The highest `evaluate` score of a list of candidates (`-∞` when empty). -/
noncomputable def listMaxE (l : List ℝ) : EReal :=
  l.foldl (fun acc (x : ℝ) => max acc (x : EReal)) ⊥

/-- The second-best score of a list: the best of what remains after giving up
one occurrence of the maximum (`-∞` when fewer than two elements). -/
noncomputable def secondMaxE : List ℝ → EReal
  | [] => ⊥
  | x :: xs => if listMaxE xs ≤ (x : EReal) then listMaxE xs else max (x : EReal) (secondMaxE xs)

/-- The header of the first candidate attaining a given score. -/
noncomputable def findHeaderWith (l : List (String × ℝ)) (m : EReal) : Option String :=
  (l.find? fun p => decide ((p.2 : EReal) = m)).map Prod.fst

/-- The candidate columns not already claimed by another field. -/
def unassignedColumns (columns : List (String × Option (List String)))
    (alreadyAssigned : List String) : List (String × Option (List String)) :=
  columns.filter fun p => p.1 ∉ alreadyAssigned

/-- Every unassigned candidate paired with its `evaluate` score. -/
noncomputable def scoredColumns (nb : NaiveBayes) (profile : FieldProfile) (field : String)
    (columns : List (String × Option (List String))) (alreadyAssigned : List String) :
    List (String × ℝ) :=
  (unassignedColumns columns alreadyAssigned).map fun p =>
    (p.1, evaluateProfile nb profile field p.1 p.2)

/-- The specification's two-threshold decision rule (§4.4 of the spec): no
candidate yields `(none, -∞)`; otherwise reject when the best score is below
`-20` or the margin over the second-best is below `0.75`, and return the
best-scoring header otherwise. -/
noncomputable def guessSpec (scored : List (String × ℝ)) : Option String × EReal :=
  if scored = [] then (none, ⊥)
  else if listMaxE (scored.map Prod.snd) < ((-20 : ℝ) : EReal) ∨
      listMaxE (scored.map Prod.snd) - secondMaxE (scored.map Prod.snd) <
        ((0.75 : ℝ) : EReal) then
    (none, listMaxE (scored.map Prod.snd))
  else
    (findHeaderWith scored (listMaxE (scored.map Prod.snd)), listMaxE (scored.map Prod.snd))

/-- The pure loop underlying `guessLoop` once the assigned-column skip and the
classifier lookup have been discharged. -/
noncomputable def selTop : List (String × ℝ) → Option String × EReal × EReal →
    Option String × EReal × EReal
  | [], st => st
  | (header, x) :: rest, (best, bestScore, secondScore) =>
    if (x : EReal) > bestScore then selTop rest (some header, (x : EReal), bestScore)
    else if (x : EReal) > secondScore then selTop rest (best, bestScore, (x : EReal))
    else selTop rest (best, bestScore, secondScore)

/-! ## Helper lemmas -/

theorem isPrefixOfAppend (needle b : List Char) :
    needle.isPrefixOf (needle ++ b) = true := by
  induction needle with
  | nil => simp [List.isPrefixOf]
  | cons c t ih => simp [List.isPrefixOf, ih]

theorem charsHaveSub_here (hay needle : List Char)
    (h : needle.isPrefixOf hay = true) : charsHaveSub hay needle = true := by
  cases hay with
  | nil => simpa [charsHaveSub] using h
  | cons c t => simp [charsHaveSub, h]

theorem charsHaveSubMiddle (a b needle : List Char) :
    charsHaveSub (a ++ (needle ++ b)) needle = true := by
  induction a with
  | nil =>
    exact charsHaveSub_here _ _
      (isPrefixOfAppend needle b)
  | cons c a ih =>
    simp only [List.cons_append, charsHaveSub]
    rw [show a.append (needle ++ b) = a ++ (needle ++ b) from rfl, ih, Bool.or_true]

theorem strContains_middle (a b needle : String) :
    strContains (a ++ needle ++ b) needle = true := by
  have : (a ++ needle ++ b).data = a.data ++ (needle.data ++ b.data) := by
    simp [String.data_append, List.append_assoc]
  simp only [strContains, this]
  exact charsHaveSubMiddle _ _ _

/-! ## Claim C9 -/

/-- C9: the automatic resolution path does not enforce one source column per
canonical field: on the single header "Data fase" (which contains both the
date keyword "data" and the process keyword "fase"), `suggest_column_mapping`
assigns the same column to the two distinct fields `date` and `process`. -/
theorem c9_double_assignment :
    suggestColumnMapping ["Data fase"] none none =
      .ok ([("date", "Data fase"), ("process", "Data fase")],
        ["employee", "quantity", "duration_minutes", "machine", "process_type"]) ∧
    "date" ≠ "process" := by
  exact ⟨rfl, by decide⟩

/-! ## Claim C5 -/

/-- C5, counterexample: on the five descriptive Italian headers the claim
promises `missing == ()`, but `suggest_column_mapping` also iterates the
optional fields `machine` and `process_type`, finds no column for them, and
reports them missing: the missing-fields list is not empty. -/
theorem c5_counterexample :
    suggestColumnMapping
        ["Data di produzione", "Operatore responsabile", "Processo principale",
          "Pezzi prodotti totali", "Durata totale [min]"] none none =
      .ok ([("date", "Data di produzione"), ("employee", "Operatore responsabile"),
        ("process", "Processo principale"), ("quantity", "Pezzi prodotti totali"),
        ("duration_minutes", "Durata totale [min]")],
        ["machine", "process_type"]) ∧
    (["machine", "process_type"] : List String) ≠ [] := by
  exact ⟨rfl, by decide⟩

/-- C5, amended: on the five descriptive Italian headers, resolution maps
`date`, `employee`, `process`, `quantity`, `duration_minutes` each to its
respective header via keyword substring matching (no explicit mapping is
given and the alias exact-match step fails for every required field), and the
returned missing-fields list equals `("machine", "process_type")` — the two
optional fields, for which these columns offer no keyword — rather than the
empty tuple. -/
theorem c5_amended_keyword_resolution :
    suggestColumnMapping
        ["Data di produzione", "Operatore responsabile", "Processo principale",
          "Pezzi prodotti totali", "Durata totale [min]"] none none =
      .ok ([("date", "Data di produzione"), ("employee", "Operatore responsabile"),
        ("process", "Processo principale"), ("quantity", "Pezzi prodotti totali"),
        ("duration_minutes", "Durata totale [min]")],
        ["machine", "process_type"]) ∧
    (REQUIRED_FIELDS.all fun field =>
      (aliasMatch field
        ["Data di produzione", "Operatore responsabile", "Processo principale",
          "Pezzi prodotti totali", "Durata totale [min]"]
        (some (mergedAliases none))).isNone) = true := by
  exact ⟨rfl, by decide⟩

/-! ## Claim C3 -/

/-- C3, counterexample: the tuple-returning resolution entry point
`suggest_column_mapping` does not raise on an explicit mapping naming an
absent column: with `column_mapping={"date": "Nonexistent"}` against columns
`["Data"]` it catches the per-field `ColumnMappingError` and reports `date`
(and every other canonical field) as missing instead of propagating the
error. -/
theorem c3_counterexample :
    suggestColumnMapping ["Data"] (some [("date", "Nonexistent")]) none =
      .ok ([], ["date", "employee", "process", "quantity", "duration_minutes",
        "machine", "process_type"]) := by
  rfl

/-- C3, amended: the per-field resolver `_resolve_column_name` (not the
tuple-returning `suggest_column_mapping`, which catches the error and lists
the field as missing) raises a `ColumnMappingError` whose message mentions
both the field and the missing column whenever the explicit mapping names a
column absent from the available columns; this happens for every alias table,
so the explicit-mapping path never falls through to the alias or keyword
strategies. -/
theorem c3_amended_explicit_mapping_hard_error
    (field candidate : String) (availableColumns : List String)
    (mapping : List (String × String))
    (aliases : Option (List (String × List String)))
    (hlookup : mapping.lookup field = some candidate)
    (habsent : candidate ∉ availableColumns) :
    resolveColumnName field availableColumns (some mapping) aliases =
      .error (.columnMappingError (explicitErrorMessage candidate field)) ∧
    strContains (explicitErrorMessage candidate field) field = true ∧
    strContains (explicitErrorMessage candidate field) candidate = true := by
  refine ⟨?_, ?_, ?_⟩
  · simp only [resolveColumnName, explicitCandidate, Option.getD_some, hlookup]
    rw [if_neg habsent]
  · have h := strContains_middle ("La colonna \x27" ++ candidate ++ "\x27 per il campo \x27")
      "\x27 non esiste nel file" field
    simpa [explicitErrorMessage, String.append_assoc] using h
  · have h := strContains_middle "La colonna \x27"
      ("\x27 per il campo \x27" ++ field ++ "\x27 non esiste nel file") candidate
    simpa [explicitErrorMessage, String.append_assoc] using h

/-- C3, witness: the amended theorem applied to the concrete input of the
claim (`column_mapping={"date": "Nonexistent"}`, columns `["Data"]`). -/
theorem c3_witness :
    resolveColumnName "date" ["Data"] (some [("date", "Nonexistent")]) none =
      .error (.columnMappingError (explicitErrorMessage "Nonexistent" "date")) ∧
    strContains (explicitErrorMessage "Nonexistent" "date") "date" = true ∧
    strContains (explicitErrorMessage "Nonexistent" "date") "Nonexistent" = true :=
  c3_amended_explicit_mapping_hard_error "date" "Nonexistent" ["Data"]
    [("date", "Nonexistent")] none (by decide) (by decide)

/-! ## Claim C4 -/

/-- C4, counterexample: constructing the classifier with an empty training map
fails with a plain `ValueError`, not with the dedicated `ConfigurationError`
kind the claim promises. -/
theorem c4_counterexample :
    NaiveBayes.init [] = .error (.valueError "training_samples must not be empty") ∧
    PyError.isConfigurationError (.valueError "training_samples must not be empty") = false := by
  exact ⟨rfl, rfl⟩

/-- C4, amended: constructing the Naive-Bayes header classifier with an empty
training map fails with a plain `ValueError` (message "training_samples must
not be empty") — there is no dedicated `ConfigurationError` kind — and
construction with any non-empty training map succeeds. -/
theorem c4_amended_empty_training (tm : List (String × List String)) :
    (tm = [] →
      NaiveBayes.init tm = .error (.valueError "training_samples must not be empty")) ∧
    (tm ≠ [] → ∃ nb, NaiveBayes.init tm = .ok nb) := by
  constructor
  · intro h
    subst h
    rfl
  · intro h
    refine ⟨⟨tm.map fun p => (p.1, ⟨p.1, trainingTokens p.2⟩),
      max ((tm.flatMap fun p => trainingTokens p.2).dedup).length 1⟩, ?_⟩
    simp [NaiveBayes.init, h]

/-- C4, witness: the amended theorem applied at the empty map and at a
concrete singleton training map. -/
theorem c4_witness :
    NaiveBayes.init [] = .error (.valueError "training_samples must not be empty") ∧
    ∃ nb, NaiveBayes.init [("f", ["a"])] = .ok nb :=
  ⟨(c4_amended_empty_training []).1 rfl,
    (c4_amended_empty_training [("f", ["a"])]).2 (by decide)⟩

/-! ## Claim C8 -/

theorem lookup_append_assoc {α : Type} (xs ys : List (String × α)) (k : String) :
    (xs ++ ys).lookup k = (xs.lookup k).or (ys.lookup k) := by
  induction xs with
  | nil => simp
  | cons p rest ih =>
    rcases p with ⟨k0, v0⟩
    cases h : k == k0 <;> simp [List.lookup_cons, h, ih]

theorem lookup_map_override {α : Type} (a b : List (String × α)) (k : String) :
    ((a.map fun p => (p.1, (b.lookup p.1).getD p.2)).lookup k) =
      (a.lookup k).map fun v => (b.lookup k).getD v := by
  induction a with
  | nil => rfl
  | cons p rest ih =>
    rcases p with ⟨k0, v0⟩
    cases h : k == k0
    · simp [List.lookup_cons, h, ih]
    · have hk : k = k0 := eq_of_beq h
      subst hk
      simp [List.lookup_cons]

theorem lookup_filter_other {α : Type} (a b : List (String × α)) (k : String)
    (hk : a.lookup k = none) :
    ((b.filter fun p => (a.lookup p.1).isNone).lookup k) = b.lookup k := by
  induction b with
  | nil => rfl
  | cons p rest ih =>
    rcases p with ⟨k0, v0⟩
    cases h : k == k0
    · by_cases hkeep : (a.lookup k0).isNone
      · simp [List.filter_cons, hkeep, List.lookup_cons, h, ih]
      · simp [List.filter_cons, hkeep, List.lookup_cons, h, ih]
    · have hk0 : k = k0 := eq_of_beq h
      subst hk0
      simp [List.filter_cons, List.lookup_cons, hk]

/-- Python's dict merge looked up at a key: the second dict's binding wins
when present, otherwise the first dict's binding is used. -/
theorem lookup_pyDictUnion {α : Type} (a b : List (String × α)) (k : String) :
    (pyDictUnion a b).lookup k = (b.lookup k).or (a.lookup k) := by
  rw [pyDictUnion, lookup_append_assoc, lookup_map_override]
  cases ha : a.lookup k
  · simp [lookup_filter_other a b k ha]
  · cases hb : b.lookup k <;> simp [hb]

/-- C8, counterexample: the header "Duration" normalizes identically to the
default alias "duration" of `duration_minutes` and is resolved to that field
when no extra aliases are supplied; but when the caller supplies extra
aliases for the same field, the extras replace the defaults (`dict` merge
overrides per key), the alias and keyword steps both fail, and the field is
reported missing instead of being resolved. -/
theorem c8_counterexample :
    (normalizeToken "Duration" ∈
      ((DEFAULT_COLUMN_ALIASES.lookup "duration_minutes").getD []).map normalizeToken) ∧
    suggestColumnMapping ["Duration"] none none =
      .ok ([("duration_minutes", "Duration")],
        ["date", "employee", "process", "quantity", "machine", "process_type"]) ∧
    suggestColumnMapping ["Duration"] none (some [("duration_minutes", ["xyz"])]) =
      .ok ([], ["date", "employee", "process", "quantity", "duration_minutes",
        "machine", "process_type"]) := by
  exact ⟨by decide, rfl, rfl⟩

/-- C8, amended: in the alias exact-match step, the alias candidates for a
field are the caller-supplied extra aliases for that field when present, and
the default aliases otherwise — the merge `defaults | extras` overrides the
defaults per field rather than uniting the two alias lists. -/
theorem c8_amended_extras_replace_defaults
    (aliases : List (String × List String)) (field : String) :
    (mergedAliases (some aliases)).lookup field =
      ((canonicalExtras (some aliases)).lookup field).or
        (DEFAULT_COLUMN_ALIASES.lookup field) :=
  lookup_pyDictUnion _ _ _

/-! ## Claim C7 -/

/-- C7: the heuristic analyzer returns `(0, 0, 0)` when the sample list is
`None` or empty, and otherwise divides the numeric count, the date-like count
and the total text length by `max(len(samples), 1)` — the provided sample
count, not the count of non-empty samples; in particular for
`["10", "20", "abc"]` the numeric ratio is `2/3`, and the numeric and
date-like ratios always lie in `[0, 1]`. -/
theorem c7_heuristic_ratios (samples : Option (List String)) (l : List String) :
    analyseSamples none = ⟨0, 0, 0⟩ ∧
    analyseSamples (some []) = ⟨0, 0, 0⟩ ∧
    (l ≠ [] →
      (analyseSamples (some l)).numericRatio =
        (l.countP isNumericSample : ℚ) / (Nat.max l.length 1 : ℕ) ∧
      (analyseSamples (some l)).dateLikeRatio =
        (l.countP isDateLikeSample : ℚ) / (Nat.max l.length 1 : ℕ) ∧
      (analyseSamples (some l)).textLength =
        (((l.map fun s => if isCountedSample s then (sampleText s).length else 0).sum : ℕ) : ℚ) /
          (Nat.max l.length 1 : ℕ)) ∧
    (0 ≤ (analyseSamples samples).numericRatio ∧ (analyseSamples samples).numericRatio ≤ 1) ∧
    (0 ≤ (analyseSamples samples).dateLikeRatio ∧ (analyseSamples samples).dateLikeRatio ≤ 1) ∧
    (analyseSamples (some ["10", "20", "abc"])).numericRatio = 2 / 3 := by
  have hratios : ∀ m : List String, m ≠ [] →
      (analyseSamples (some m)).numericRatio =
        (m.countP isNumericSample : ℚ) / (Nat.max m.length 1 : ℕ) ∧
      (analyseSamples (some m)).dateLikeRatio =
        (m.countP isDateLikeSample : ℚ) / (Nat.max m.length 1 : ℕ) ∧
      (analyseSamples (some m)).textLength =
        (((m.map fun s => if isCountedSample s then (sampleText s).length else 0).sum : ℕ) : ℚ) /
          (Nat.max m.length 1 : ℕ) := by
    intro m hm
    match m, hm with
    | x :: xs, _ =>
      refine ⟨?_, ?_, ?_⟩
      · simp only [analyseSamples, Rat.mkRat_eq_div]
        push_cast
        ring
      · simp only [analyseSamples, Rat.mkRat_eq_div]
        push_cast
        ring
      · simp only [analyseSamples, Rat.mkRat_eq_div, Int.cast_natCast]
  have hbound : ∀ s : Option (List String),
      (0 ≤ (analyseSamples s).numericRatio ∧ (analyseSamples s).numericRatio ≤ 1) ∧
      (0 ≤ (analyseSamples s).dateLikeRatio ∧ (analyseSamples s).dateLikeRatio ≤ 1) := by
    intro s
    match s with
    | none => simp [analyseSamples]
    | some [] => simp [analyseSamples]
    | some (x :: xs) =>
      have hpos : (0 : ℚ) < ((Nat.max (x :: xs).length 1 : ℕ) : ℚ) := by
        have : (1 : ℕ) ≤ Nat.max (x :: xs).length 1 := Nat.le_max_right _ _
        exact_mod_cast Nat.lt_of_lt_of_le Nat.zero_lt_one this
      have hle : ∀ p : String → Bool,
          (((x :: xs).countP p : ℕ) : ℚ) ≤ ((Nat.max (x :: xs).length 1 : ℕ) : ℚ) := by
        intro p
        have h1 : (x :: xs).countP p ≤ (x :: xs).length := List.countP_le_length p
        have h2 : (x :: xs).length ≤ Nat.max (x :: xs).length 1 := Nat.le_max_left _ _
        exact_mod_cast le_trans h1 h2
      constructor <;> constructor
      · simp only [analyseSamples, Rat.mkRat_eq_div]
        positivity
      · simp only [analyseSamples, Rat.mkRat_eq_div]
        rw [div_le_one hpos]
        exact_mod_cast hle isNumericSample
      · simp only [analyseSamples, Rat.mkRat_eq_div]
        positivity
      · simp only [analyseSamples, Rat.mkRat_eq_div]
        rw [div_le_one hpos]
        exact_mod_cast hle isDateLikeSample
  refine ⟨rfl, rfl, hratios l, (hbound samples).1, (hbound samples).2, ?_⟩
  rw [show (analyseSamples (some ["10", "20", "abc"])).numericRatio = mkRat 2 3 from rfl,
    Rat.mkRat_eq_div]
  norm_num

/-- C7, witness: the theorem applied at the concrete sample list of the
claim. -/
theorem c7_witness :
    (analyseSamples (some ["10", "20", "abc"])).numericRatio =
      ((["10", "20", "abc"].countP isNumericSample : ℕ) : ℚ) /
        ((Nat.max (["10", "20", "abc"] : List String).length 1 : ℕ) : ℚ) :=
  ((c7_heuristic_ratios (some ["10", "20", "abc"]) ["10", "20", "abc"]).2.2.1
    (by decide)).1

/-! ## Claim C6 -/

theorem foldl_add_eq_sum {α : Type} (f : α → ℝ) :
    ∀ (l : List α) (b : ℝ), l.foldl (fun acc t => acc + f t) b = b + (l.map f).sum := by
  intro l
  induction l with
  | nil => intro b; simp
  | cons x xs ih =>
    intro b
    simp only [List.foldl_cons, List.map_cons, List.sum_cons, ih (b + f x)]
    ring

/-- C6: for a classifier built from a training map, the vocabulary size is
`max(|union of all per-field tokens|, 1)`, and for every known field,
`score(field, header, samples)` is `-∞` when the combined token list
(header tokens plus tokens of all non-empty samples) is empty, and otherwise
equals `log(1/number_of_fields)` plus, per token, the add-one-smoothed
log-likelihood `log((count_of_token_in_field + 1) /
(field_total_tokens + vocabulary_size))`. -/
theorem c6_score_formula (tm : List (String × List String)) (nb : NaiveBayes)
    (hinit : NaiveBayes.init tm = .ok nb)
    (field : String) (profile : FieldProfile)
    (hfield : nb.profiles.lookup field = some profile)
    (header : String) (samples : Option (List String)) :
    nb.vocabularySize = max ((tm.flatMap fun p => trainingTokens p.2).dedup).length 1 ∧
    nb.score field header samples = some (
      if tokenize header ++ flattenSamples samples = [] then (⊥ : EReal)
      else (((Real.log (1 / nb.profiles.length) +
        ((tokenize header ++ flattenSamples samples).map fun token =>
          Real.log ((profile.tokens.count token + 1 : ℕ) /
            (profile.tokens.length + nb.vocabularySize : ℕ))).sum : ℝ)) : EReal)) := by
  constructor
  · by_cases h : tm = []
    · subst h
      simp [NaiveBayes.init] at hinit
    · rw [NaiveBayes.init, if_neg h] at hinit
      have := Except.ok.inj hinit
      rw [← this]
  · simp only [NaiveBayes.score, hfield, Option.map_some']
    congr 1
    simp only [NaiveBayes.scoreProfile, NaiveBayes.logPrior]
    by_cases htok : tokenize header ++ flattenSamples samples = []
    · simp [htok]
    · rw [if_neg htok, if_neg htok]
      rw [foldl_add_eq_sum]

/-- C6, witness: the theorem applied to the classifier built from a concrete
one-field training map. -/
theorem c6_witness :
    (NaiveBayes.mk [("f", FieldProfile.mk "f" ["a"])] 1).vocabularySize =
      max ((([("f", ["a"])] : List (String × List String)).flatMap
        fun p => trainingTokens p.2).dedup).length 1 ∧
    (NaiveBayes.mk [("f", FieldProfile.mk "f" ["a"])] 1).score "f" "x" none = some (
      if tokenize "x" ++ flattenSamples none = [] then (⊥ : EReal)
      else (((Real.log (1 / ((NaiveBayes.mk [("f", FieldProfile.mk "f" ["a"])] 1).profiles.length)) +
        ((tokenize "x" ++ flattenSamples none).map fun token =>
          Real.log (((FieldProfile.mk "f" ["a"]).tokens.count token + 1 : ℕ) /
            ((FieldProfile.mk "f" ["a"]).tokens.length +
              (NaiveBayes.mk [("f", FieldProfile.mk "f" ["a"])] 1).vocabularySize : ℕ))).sum : ℝ)) : EReal)) :=
  c6_score_formula [("f", ["a"])] (NaiveBayes.mk [("f", FieldProfile.mk "f" ["a"])] 1)
    rfl "f" (FieldProfile.mk "f" ["a"]) rfl "x" none

/-! ## Claim C10 -/

theorem guessLoop_filter (ev : String → Option (List String) → Option ℝ)
    (cols : List (String × Option (List String))) (asg : List String) :
    ∀ st, guessLoop ev cols asg st = guessLoop ev (unassignedColumns cols asg) [] st := by
  induction cols with
  | nil => intro st; rfl
  | cons p rest ih =>
    intro st
    rcases p with ⟨header, samples⟩
    rcases st with ⟨b, bs, ss⟩
    by_cases hmem : header ∈ asg
    · rw [show unassignedColumns ((header, samples) :: rest) asg =
          unassignedColumns rest asg by
        simp [unassignedColumns, List.filter_cons, hmem]]
      rw [show guessLoop ev ((header, samples) :: rest) asg (b, bs, ss) =
          guessLoop ev rest asg (b, bs, ss) by
        simp [guessLoop, hmem]]
      exact ih _
    · rw [show unassignedColumns ((header, samples) :: rest) asg =
          (header, samples) :: unassignedColumns rest asg by
        simp [unassignedColumns, List.filter_cons, hmem]]
      have hnil : header ∉ ([] : List String) := List.not_mem_nil header
      simp only [guessLoop, if_neg hmem, if_neg hnil]
      cases hev : ev header samples with
      | none => rfl
      | some score =>
        dsimp only
        by_cases h1 : (score : EReal) > bs
        · rw [if_pos h1, if_pos h1]
          exact ih _
        · rw [if_neg h1, if_neg h1]
          by_cases h2 : (score : EReal) > ss
          · rw [if_pos h2, if_pos h2]
            exact ih _
          · rw [if_neg h2, if_neg h2]
            exact ih _

/-- C10: when exactly one candidate column is not already assigned,
`ColumnGuesser.guess` returns that column precisely when its `evaluate` score
is at least `-20`: the second-best score stays `-∞`, the margin is `+∞`, and
the `0.75` margin guard is vacuous (the `evaluate` score itself is a real
number by construction — a non-finite classifier score is replaced by
`-1000.0` before the heuristic adjustments). -/
theorem c10_single_candidate (g : ColumnGuesser) (field : String) (profile : FieldProfile)
    (columns : List (String × Option (List String))) (alreadyAssigned : List String)
    (header : String) (samples : Option (List String))
    (hfield : g.classifier.profiles.lookup field = some profile)
    (hsingle : unassignedColumns columns alreadyAssigned = [(header, samples)]) :
    g.guess field columns alreadyAssigned = some (
      if ((-20 : ℝ) : EReal) ≤ ((evaluateProfile g.classifier profile field header samples : ℝ) : EReal)
      then (some header, ((evaluateProfile g.classifier profile field header samples : ℝ) : EReal))
      else (none, ((evaluateProfile g.classifier profile field header samples : ℝ) : EReal))) := by
  have hev : g.evaluate field header samples =
      some (evaluateProfile g.classifier profile field header samples) := by
    simp [ColumnGuesser.evaluate, hfield]
  set r := evaluateProfile g.classifier profile field header samples with hr
  unfold ColumnGuesser.guess
  rw [guessLoop_filter, hsingle]
  have hnil : header ∉ ([] : List String) := List.not_mem_nil header
  simp only [guessLoop, if_neg hnil, hev]
  rw [if_pos (EReal.bot_lt_coe r)]
  simp only [guessLoop, Option.map_some']
  have hmargin : ((r : ℝ) : EReal) - ⊥ = ⊤ := by
    rw [sub_eq_add_neg, EReal.neg_bot, EReal.coe_add_top]
  rw [hmargin]
  have hnotop : ¬ ((⊤ : EReal) < ((0.75 : ℝ) : EReal)) := not_top_lt
  by_cases hge : ((-20 : ℝ) : EReal) ≤ ((r : ℝ) : EReal)
  · rw [if_neg (by
      rintro (hlt | hlt)
      · exact absurd hlt (not_lt.mpr hge)
      · exact hnotop hlt)]
    rw [if_pos hge]
  · rw [if_pos (Or.inl (not_le.mp hge))]
    rw [if_neg hge]

/-- C10, witness: the theorem applied to a concrete one-field classifier and
a single unassigned candidate column. -/
theorem c10_witness :
    ColumnGuesser.guess ⟨⟨[("f", FieldProfile.mk "f" ["a"])], 1⟩⟩ "f" [("a", none)] [] = some (
      if ((-20 : ℝ) : EReal) ≤ ((evaluateProfile ⟨[("f", FieldProfile.mk "f" ["a"])], 1⟩
            (FieldProfile.mk "f" ["a"]) "f" "a" none : ℝ) : EReal)
      then (some "a", ((evaluateProfile ⟨[("f", FieldProfile.mk "f" ["a"])], 1⟩
            (FieldProfile.mk "f" ["a"]) "f" "a" none : ℝ) : EReal))
      else (none, ((evaluateProfile ⟨[("f", FieldProfile.mk "f" ["a"])], 1⟩
            (FieldProfile.mk "f" ["a"]) "f" "a" none : ℝ) : EReal))) :=
  c10_single_candidate ⟨⟨[("f", FieldProfile.mk "f" ["a"])], 1⟩⟩ "f"
    (FieldProfile.mk "f" ["a"]) [("a", none)] [] "a" none rfl rfl

/-! ## Claim C1: characterizing the best/second-best loop -/

theorem foldlMax_eq (l : List ℝ) :
    ∀ a : EReal, l.foldl (fun acc (x : ℝ) => max acc (x : EReal)) a = max a (listMaxE l) := by
  induction l with
  | nil =>
    intro a
    simp [listMaxE, max_eq_left bot_le]
  | cons x xs ih =>
    intro a
    have hcons : listMaxE (x :: xs) = max (x : EReal) (listMaxE xs) := by
      simp only [listMaxE, List.foldl_cons, ih (max ⊥ (x : EReal))]
      rw [max_eq_right bot_le]
    simp only [List.foldl_cons, ih (max a (x : EReal)), hcons, max_assoc]

theorem listMaxE_cons (x : ℝ) (xs : List ℝ) :
    listMaxE (x :: xs) = max (x : EReal) (listMaxE xs) := by
  rw [show listMaxE (x :: xs) =
    List.foldl (fun acc (y : ℝ) => max acc (y : EReal)) (max ⊥ (x : EReal)) xs from rfl]
  rw [foldlMax_eq, max_eq_right bot_le]

theorem secondMaxE_cons (x : ℝ) (xs : List ℝ) :
    secondMaxE (x :: xs) =
      if listMaxE xs ≤ (x : EReal) then listMaxE xs
      else max (x : EReal) (secondMaxE xs) := rfl

theorem listMaxE_attained (l : List ℝ) (hne : l ≠ []) :
    ∃ x ∈ l, (x : EReal) = listMaxE l := by
  induction l with
  | nil => exact absurd rfl hne
  | cons x xs ih =>
    rw [listMaxE_cons]
    rcases eq_or_ne xs [] with h | h
    · subst h
      exact ⟨x, List.mem_cons_self x [], by simp [listMaxE, max_eq_left bot_le]⟩
    · obtain ⟨y, hy, hymax⟩ := ih h
      rcases le_total (listMaxE xs) (x : EReal) with hle | hle
      · exact ⟨x, List.mem_cons_self x xs, (max_eq_left hle).symm⟩
      · exact ⟨y, List.mem_cons_of_mem x hy, by rw [max_eq_right hle, hymax]⟩

theorem findHeaderWith_cons_eq (h : String) (x : ℝ) (rest : List (String × ℝ))
    (m : EReal) (hx : (x : EReal) = m) :
    findHeaderWith ((h, x) :: rest) m = some h := by
  unfold findHeaderWith
  rw [List.find?_cons]
  rw [show (decide (((h, x).2 : EReal) = m)) = true from decide_eq_true hx]
  rfl

theorem findHeaderWith_cons_ne (h : String) (x : ℝ) (rest : List (String × ℝ))
    (m : EReal) (hx : (x : EReal) ≠ m) :
    findHeaderWith ((h, x) :: rest) m = findHeaderWith rest m := by
  unfold findHeaderWith
  rw [List.find?_cons]
  rw [show (decide (((h, x).2 : EReal) = m)) = false from decide_eq_false hx]

/-- The loop of `guess` computes the best score, the first header attaining
it, and the second-best score, merged with whatever state it starts from. -/
theorem selTop_characterization :
    ∀ (l : List (String × ℝ)) (b : Option String) (bs ss : EReal), ss ≤ bs →
    selTop l (b, bs, ss) =
      (if bs < listMaxE (l.map Prod.snd) then findHeaderWith l (listMaxE (l.map Prod.snd))
        else b,
       max bs (listMaxE (l.map Prod.snd)),
       if bs < listMaxE (l.map Prod.snd) then max bs (secondMaxE (l.map Prod.snd))
        else max ss (listMaxE (l.map Prod.snd))) := by
  intro l
  induction l with
  | nil =>
    intro b bs ss hss
    have h1 : listMaxE (([] : List (String × ℝ)).map Prod.snd) = ⊥ := rfl
    rw [h1]
    simp [selTop, not_lt_bot, max_eq_left bot_le]
  | cons p rest ih =>
    intro b bs ss hss
    rcases p with ⟨h, x⟩
    have hmax : listMaxE (((h, x) :: rest).map Prod.snd) =
        max (x : EReal) (listMaxE (rest.map Prod.snd)) := by
      rw [show ((h, x) :: rest).map Prod.snd = x :: rest.map Prod.snd from rfl, listMaxE_cons]
    have hsec : secondMaxE (((h, x) :: rest).map Prod.snd) =
        if listMaxE (rest.map Prod.snd) ≤ (x : EReal) then listMaxE (rest.map Prod.snd)
        else max (x : EReal) (secondMaxE (rest.map Prod.snd)) := by
      rw [show ((h, x) :: rest).map Prod.snd = x :: rest.map Prod.snd from rfl, secondMaxE_cons]
    set M := listMaxE (rest.map Prod.snd) with hM
    set M2 := secondMaxE (rest.map Prod.snd) with hM2
    rw [show selTop ((h, x) :: rest) (b, bs, ss) =
      (if (x : EReal) > bs then selTop rest (some h, (x : EReal), bs)
       else if (x : EReal) > ss then selTop rest (b, bs, (x : EReal))
       else selTop rest (b, bs, ss)) from rfl]
    rw [hmax, hsec]
    by_cases h1 : (x : EReal) > bs
    · rw [if_pos h1, ih (some h) (x : EReal) bs (le_of_lt h1)]
      have hcond : bs < max (x : EReal) M := lt_of_lt_of_le h1 (le_max_left _ _)
      rw [if_pos hcond, if_pos hcond]
      by_cases h2 : (x : EReal) < M
      · rw [if_pos h2, if_pos h2]
        have hxM : max (x : EReal) M = M := max_eq_right (le_of_lt h2)
        rw [hxM]
        simp only [Prod.mk.injEq]
        refine ⟨?_, ?_, ?_⟩
        · exact (findHeaderWith_cons_ne h x rest M (ne_of_lt h2)).symm
        · exact (max_eq_right (le_of_lt (lt_trans h1 h2))).symm
        · rw [if_neg (not_le.mpr h2)]
          exact (max_eq_right (le_trans (le_of_lt h1) (le_max_left _ _))).symm
      · rw [if_neg h2, if_neg h2]
        have hMx : M ≤ (x : EReal) := not_lt.mp h2
        have hxM : max (x : EReal) M = (x : EReal) := max_eq_left hMx
        rw [hxM, if_pos hMx]
        simp only [Prod.mk.injEq]
        refine ⟨?_, ?_, trivial⟩
        · exact (findHeaderWith_cons_eq h x rest (x : EReal) rfl).symm
        · exact (max_eq_right (le_of_lt h1)).symm
    · have hxbs : (x : EReal) ≤ bs := not_lt.mp h1
      rw [if_neg h1]
      by_cases h2 : (x : EReal) > ss
      · rw [if_pos h2, ih b bs (x : EReal) hxbs]
        by_cases h3 : bs < M
        · have hcond : bs < max (x : EReal) M := lt_of_lt_of_le h3 (le_max_right _ _)
          have hxM : max (x : EReal) M = M := max_eq_right (le_trans hxbs (le_of_lt h3))
          rw [if_pos h3, if_pos h3, if_pos hcond, if_pos hcond, hxM]
          simp only [Prod.mk.injEq]
          refine ⟨?_, trivial, ?_⟩
          · exact (findHeaderWith_cons_ne h x rest M
              (ne_of_lt (lt_of_le_of_lt hxbs h3))).symm
          · rw [if_neg (not_le.mpr (lt_of_le_of_lt hxbs h3))]
            rw [← max_assoc, max_eq_left hxbs]
        · have hcond : ¬ bs < max (x : EReal) M :=
            not_lt.mpr (max_le hxbs (not_lt.mp h3))
          rw [if_neg h3, if_neg h3, if_neg hcond, if_neg hcond]
          simp only [Prod.mk.injEq]
          refine ⟨trivial, ?_, ?_⟩
          · rw [← max_assoc, max_eq_left hxbs]
          · exact (max_eq_right (le_trans (le_of_lt h2) (le_max_left _ _))).symm
      · have hxss : (x : EReal) ≤ ss := not_lt.mp h2
        rw [if_neg h2, ih b bs ss hss]
        by_cases h3 : bs < M
        · have hcond : bs < max (x : EReal) M := lt_of_lt_of_le h3 (le_max_right _ _)
          have hxM : max (x : EReal) M = M := max_eq_right (le_trans hxbs (le_of_lt h3))
          rw [if_pos h3, if_pos h3, if_pos hcond, if_pos hcond, hxM]
          simp only [Prod.mk.injEq]
          refine ⟨?_, trivial, ?_⟩
          · exact (findHeaderWith_cons_ne h x rest M
              (ne_of_lt (lt_of_le_of_lt hxbs h3))).symm
          · rw [if_neg (not_le.mpr (lt_of_le_of_lt hxbs h3))]
            rw [← max_assoc, max_eq_left hxbs]
        · have hcond : ¬ bs < max (x : EReal) M :=
            not_lt.mpr (max_le hxbs (not_lt.mp h3))
          rw [if_neg h3, if_neg h3, if_neg hcond, if_neg hcond]
          simp only [Prod.mk.injEq]
          refine ⟨trivial, ?_, ?_⟩
          · rw [← max_assoc, max_eq_left hxbs]
          · rw [← max_assoc, max_eq_left hxss]

theorem guessLoop_total (ev : String → Option (List String) → Option ℝ)
    (evf : String → Option (List String) → ℝ)
    (hev : ∀ h s, ev h s = some (evf h s)) :
    ∀ (l : List (String × Option (List String))) (st : Option String × EReal × EReal),
    guessLoop ev l [] st = some (selTop (l.map fun p => (p.1, evf p.1 p.2)) st) := by
  intro l
  induction l with
  | nil => intro st; rfl
  | cons p rest ih =>
    intro st
    rcases p with ⟨h, s⟩
    rcases st with ⟨b, bs, ss⟩
    have hnil : h ∉ ([] : List String) := List.not_mem_nil h
    simp only [guessLoop, if_neg hnil, hev h s, List.map_cons]
    rw [show selTop ((h, evf h s) :: rest.map fun p => (p.1, evf p.1 p.2)) (b, bs, ss) =
      (if ((evf h s : ℝ) : EReal) > bs then
        selTop (rest.map fun p => (p.1, evf p.1 p.2)) (some h, ((evf h s : ℝ) : EReal), bs)
       else if ((evf h s : ℝ) : EReal) > ss then
        selTop (rest.map fun p => (p.1, evf p.1 p.2)) (b, bs, ((evf h s : ℝ) : EReal))
       else selTop (rest.map fun p => (p.1, evf p.1 p.2)) (b, bs, ss)) from rfl]
    by_cases h1 : ((evf h s : ℝ) : EReal) > bs
    · rw [if_pos h1, if_pos h1]
      exact ih _
    · rw [if_neg h1, if_neg h1]
      by_cases h2 : ((evf h s : ℝ) : EReal) > ss
      · rw [if_pos h2, if_pos h2]
        exact ih _
      · rw [if_neg h2, if_neg h2]
        exact ih _

/-- C1, amended: for every known field, `ColumnGuesser.guess` implements the
two-threshold decision rule over the unassigned candidates: with no candidate
it returns `(none, -∞)`; otherwise, with `best` the highest `evaluate` score
and `margin` the gap to the second-best score, it returns `(none, best)` when
`best < -20` or `margin < 0.75`, and the first best-scoring header with
`best` otherwise.  In particular (second conjunct), whenever the two
best-scoring candidates lie within `0.75` of each other, `guess` returns
`(none, best)` — the claim's stronger reading, that ANY two candidates within
`0.75` force rejection, is refuted by the counterexample. -/
theorem c1_amended_guess_rule (g : ColumnGuesser) (field : String) (profile : FieldProfile)
    (columns : List (String × Option (List String))) (alreadyAssigned : List String)
    (hfield : g.classifier.profiles.lookup field = some profile) :
    g.guess field columns alreadyAssigned =
      some (guessSpec (scoredColumns g.classifier profile field columns alreadyAssigned)) ∧
    (scoredColumns g.classifier profile field columns alreadyAssigned ≠ [] →
      listMaxE ((scoredColumns g.classifier profile field columns alreadyAssigned).map
          Prod.snd) -
        secondMaxE ((scoredColumns g.classifier profile field columns alreadyAssigned).map
          Prod.snd) < ((0.75 : ℝ) : EReal) →
      g.guess field columns alreadyAssigned =
        some (none, listMaxE ((scoredColumns g.classifier profile field columns
          alreadyAssigned).map Prod.snd))) := by
  have hev : ∀ h s, g.evaluate field h s =
      some (evaluateProfile g.classifier profile field h s) := by
    intro h s
    simp [ColumnGuesser.evaluate, hfield]
  have hmain : g.guess field columns alreadyAssigned =
      some (guessSpec (scoredColumns g.classifier profile field columns alreadyAssigned)) := by
    unfold ColumnGuesser.guess
    rw [guessLoop_filter, guessLoop_total (g.evaluate field)
      (fun h s => evaluateProfile g.classifier profile field h s) hev]
    rw [Option.map_some']
    rw [show ((unassignedColumns columns alreadyAssigned).map
      fun p => (p.1, evaluateProfile g.classifier profile field p.1 p.2)) =
      scoredColumns g.classifier profile field columns alreadyAssigned from rfl]
    set scored := scoredColumns g.classifier profile field columns alreadyAssigned with hscored
    rcases eq_or_ne scored [] with hsc | hsc
    · rw [hsc]
      rw [show selTop [] (none, (⊥ : EReal), (⊥ : EReal)) =
        ((none : Option String), (⊥ : EReal), (⊥ : EReal)) from rfl]
      rw [show guessSpec [] = ((none : Option String), (⊥ : EReal)) by
        rw [guessSpec, if_pos rfl]]
    · rw [selTop_characterization scored none ⊥ ⊥ le_rfl]
      have hmapne : scored.map Prod.snd ≠ [] := by
        intro hcontra
        exact hsc (List.map_eq_nil_iff.mp hcontra)
      obtain ⟨x, hxmem, hxmax⟩ := listMaxE_attained (scored.map Prod.snd) hmapne
      obtain ⟨q, hqmem, hqx⟩ := List.mem_map.mp hxmem
      have hM : (⊥ : EReal) < listMaxE (scored.map Prod.snd) := by
        rw [← hxmax]
        exact EReal.bot_lt_coe x
      have hfind : (scored.find? fun p =>
          decide ((p.2 : EReal) = listMaxE (scored.map Prod.snd))).isSome := by
        rw [List.find?_isSome]
        exact ⟨q, hqmem, decide_eq_true (by rw [hqx, hxmax])⟩
      obtain ⟨r, hr⟩ := Option.isSome_iff_exists.mp hfind
      have hhh : findHeaderWith scored (listMaxE (scored.map Prod.snd)) = some r.1 := by
        rw [findHeaderWith, hr, Option.map_some']
      rw [if_pos hM, if_pos hM, max_eq_right bot_le, max_eq_right bot_le, hhh]
      rw [guessSpec, if_neg hsc, hhh]
  refine ⟨hmain, fun hne hmargin => ?_⟩
  rw [hmain, guessSpec, if_neg hne, if_pos (Or.inr hmargin)]

/-- Helper: `evaluate` for a textual field with no samples is exactly the
finite classifier score (all heuristic adjustments vanish). -/
theorem evaluateProfile_textual_none (nb : NaiveBayes) (pf : FieldProfile)
    (field header : String) (r : ℝ)
    (hf1 : ¬ field = "date")
    (hf2 : ¬ (field = "quantity" ∨ field = "duration_minutes"))
    (hscore : nb.scoreProfile pf header none = (r : EReal)) :
    evaluateProfile nb pf field header none = r := by
  simp only [evaluateProfile, hscore]
  rw [if_neg (by simp [EReal.coe_ne_bot, EReal.coe_ne_top] :
    ¬ ((r : EReal) = ⊥ ∨ (r : EReal) = ⊤))]
  rw [if_neg hf1, if_neg hf2, EReal.toReal_coe]
  rw [show analyseSamples none = ⟨0, 0, 0⟩ from rfl]
  norm_num

/-- C1, counterexample: with three candidate columns, the two lowest-scoring
ones ("b c" and "b c d") score within `0.75` of each other (their gap is
`log 2`), yet `guess` does not return `(None, best_score)` — the best
candidate "a" beats the runner-up by `2·log 2 > 0.75` and is returned.  The
claim's "whenever two candidate columns score within 0.75 of each other"
only holds of the two best-scoring candidates. -/
theorem c1_counterexample :
    |evaluateProfile ⟨[("f", FieldProfile.mk "f" ["a"])], 1⟩ (FieldProfile.mk "f" ["a"])
        "f" "b c" none -
      evaluateProfile ⟨[("f", FieldProfile.mk "f" ["a"])], 1⟩ (FieldProfile.mk "f" ["a"])
        "f" "b c d" none| < 0.75 ∧
    ColumnGuesser.guess ⟨⟨[("f", FieldProfile.mk "f" ["a"])], 1⟩⟩ "f"
        [("a", none), ("b c", none), ("b c d", none)] [] =
      some (some "a", ((0 : ℝ) : EReal)) := by
  have hlog2pos : (0 : ℝ) < Real.log 2 := Real.log_pos (by norm_num)
  have hsa : NaiveBayes.scoreProfile ⟨[("f", FieldProfile.mk "f" ["a"])], 1⟩
      (FieldProfile.mk "f" ["a"]) "a" none = ((0 : ℝ) : EReal) := by
    rw [NaiveBayes.scoreProfile]
    rw [show tokenize "a" ++ flattenSamples none = ["a"] from rfl]
    rw [if_neg (by decide : ¬ (["a"] : List String) = [])]
    norm_num [NaiveBayes.logPrior]
  have hsb : NaiveBayes.scoreProfile ⟨[("f", FieldProfile.mk "f" ["a"])], 1⟩
      (FieldProfile.mk "f" ["a"]) "b c" none = ((-(2 * Real.log 2) : ℝ) : EReal) := by
    rw [NaiveBayes.scoreProfile]
    rw [show tokenize "b c" ++ flattenSamples none = ["b", "c"] from rfl]
    rw [if_neg (by decide : ¬ (["b", "c"] : List String) = [])]
    rw [EReal.coe_eq_coe_iff]
    simp only [List.foldl_cons, List.foldl_nil]
    rw [show ((FieldProfile.mk "f" ["a"]).tokens.count "b" + 1 : ℕ) = 1 from rfl]
    rw [show ((FieldProfile.mk "f" ["a"]).tokens.count "c" + 1 : ℕ) = 1 from rfl]
    rw [show ((FieldProfile.mk "f" ["a"]).tokens.length +
      (NaiveBayes.mk [("f", FieldProfile.mk "f" ["a"])] 1).vocabularySize : ℕ) = 2 from rfl]
    rw [NaiveBayes.logPrior]
    rw [show ((NaiveBayes.mk [("f", FieldProfile.mk "f" ["a"])] 1).profiles.length : ℕ) = 1
      from rfl]
    push_cast
    rw [show Real.log ((1 : ℝ)/2) = -Real.log 2 from by rw [one_div, Real.log_inv]]
    norm_num
    ring
  have hsc : NaiveBayes.scoreProfile ⟨[("f", FieldProfile.mk "f" ["a"])], 1⟩
      (FieldProfile.mk "f" ["a"]) "b c d" none = ((-(3 * Real.log 2) : ℝ) : EReal) := by
    rw [NaiveBayes.scoreProfile]
    rw [show tokenize "b c d" ++ flattenSamples none = ["b", "c", "d"] from rfl]
    rw [if_neg (by decide : ¬ (["b", "c", "d"] : List String) = [])]
    rw [EReal.coe_eq_coe_iff]
    simp only [List.foldl_cons, List.foldl_nil]
    rw [show ((FieldProfile.mk "f" ["a"]).tokens.count "b" + 1 : ℕ) = 1 from rfl]
    rw [show ((FieldProfile.mk "f" ["a"]).tokens.count "c" + 1 : ℕ) = 1 from rfl]
    rw [show ((FieldProfile.mk "f" ["a"]).tokens.count "d" + 1 : ℕ) = 1 from rfl]
    rw [show ((FieldProfile.mk "f" ["a"]).tokens.length +
      (NaiveBayes.mk [("f", FieldProfile.mk "f" ["a"])] 1).vocabularySize : ℕ) = 2 from rfl]
    rw [NaiveBayes.logPrior]
    rw [show ((NaiveBayes.mk [("f", FieldProfile.mk "f" ["a"])] 1).profiles.length : ℕ) = 1
      from rfl]
    push_cast
    rw [show Real.log ((1 : ℝ)/2) = -Real.log 2 from by rw [one_div, Real.log_inv]]
    norm_num
    ring
  have hea : evaluateProfile ⟨[("f", FieldProfile.mk "f" ["a"])], 1⟩
      (FieldProfile.mk "f" ["a"]) "f" "a" none = 0 :=
    evaluateProfile_textual_none _ _ _ _ _ (by decide) (by decide) hsa
  have heb : evaluateProfile ⟨[("f", FieldProfile.mk "f" ["a"])], 1⟩
      (FieldProfile.mk "f" ["a"]) "f" "b c" none = -(2 * Real.log 2) :=
    evaluateProfile_textual_none _ _ _ _ _ (by decide) (by decide) hsb
  have hec : evaluateProfile ⟨[("f", FieldProfile.mk "f" ["a"])], 1⟩
      (FieldProfile.mk "f" ["a"]) "f" "b c d" none = -(3 * Real.log 2) :=
    evaluateProfile_textual_none _ _ _ _ _ (by decide) (by decide) hsc
  constructor
  · rw [heb, hec]
    rw [show -(2 * Real.log 2) - -(3 * Real.log 2) = Real.log 2 by ring]
    rw [abs_of_pos hlog2pos]
    linarith [Real.log_two_lt_d9]
  · have hev : ∀ h s, ColumnGuesser.evaluate ⟨⟨[("f", FieldProfile.mk "f" ["a"])], 1⟩⟩ "f" h s =
        some (evaluateProfile ⟨[("f", FieldProfile.mk "f" ["a"])], 1⟩
          (FieldProfile.mk "f" ["a"]) "f" h s) := by
      intro h s
      simp [ColumnGuesser.evaluate]
    rw [ColumnGuesser.guess]
    have e2 : ((((-(2 * Real.log 2) : ℝ)) : EReal) > (((0 : ℝ)) : EReal)) = False :=
      eq_false (by rw [gt_iff_lt, EReal.coe_lt_coe_iff]; nlinarith)
    have e4 : ((((-(3 * Real.log 2) : ℝ)) : EReal) > (((0 : ℝ)) : EReal)) = False :=
      eq_false (by rw [gt_iff_lt, EReal.coe_lt_coe_iff]; nlinarith)
    have e5 : ((((-(3 * Real.log 2) : ℝ)) : EReal) > (((-(2 * Real.log 2) : ℝ)) : EReal)) = False :=
      eq_false (by rw [gt_iff_lt, EReal.coe_lt_coe_iff]; nlinarith)
    have e1 : ∀ x : ℝ, (((x : ℝ) : EReal) > (⊥ : EReal)) = True :=
      fun x => eq_true (EReal.bot_lt_coe x)
    simp only [guessLoop, List.not_mem_nil, if_neg, hev, hea, heb, hec, e1, e2, e4, e5,
      if_true, if_false, not_false_eq_true, Option.map_some']
    have hfinal : ¬ ((((0 : ℝ)) : EReal) < ((-20 : ℝ) : EReal) ∨
        (((0 : ℝ)) : EReal) - (((-(2 * Real.log 2) : ℝ)) : EReal) < ((0.75 : ℝ) : EReal)) := by
      rw [EReal.coe_lt_coe_iff, ← EReal.coe_sub, EReal.coe_lt_coe_iff]
      rintro (hbad | hbad)
      · linarith
      · nlinarith [Real.log_two_gt_d9]
    rw [if_neg hfinal]

/-- C1, witness: the amended rule theorem applied to a concrete one-field
classifier with a single candidate column. -/
theorem c1_witness :
    ColumnGuesser.guess ⟨⟨[("f", FieldProfile.mk "f" ["a"])], 1⟩⟩ "f" [("a", none)] [] =
      some (guessSpec (scoredColumns ⟨[("f", FieldProfile.mk "f" ["a"])], 1⟩
        (FieldProfile.mk "f" ["a"]) "f" [("a", none)] [])) ∧
    (scoredColumns ⟨[("f", FieldProfile.mk "f" ["a"])], 1⟩
        (FieldProfile.mk "f" ["a"]) "f" [("a", none)] [] ≠ [] →
      listMaxE ((scoredColumns ⟨[("f", FieldProfile.mk "f" ["a"])], 1⟩
          (FieldProfile.mk "f" ["a"]) "f" [("a", none)] []).map Prod.snd) -
        secondMaxE ((scoredColumns ⟨[("f", FieldProfile.mk "f" ["a"])], 1⟩
          (FieldProfile.mk "f" ["a"]) "f" [("a", none)] []).map Prod.snd) <
          ((0.75 : ℝ) : EReal) →
      ColumnGuesser.guess ⟨⟨[("f", FieldProfile.mk "f" ["a"])], 1⟩⟩ "f" [("a", none)] [] =
        some (none, listMaxE ((scoredColumns ⟨[("f", FieldProfile.mk "f" ["a"])], 1⟩
          (FieldProfile.mk "f" ["a"]) "f" [("a", none)] []).map Prod.snd))) :=
  c1_amended_guess_rule ⟨⟨[("f", FieldProfile.mk "f" ["a"])], 1⟩⟩ "f"
    (FieldProfile.mk "f" ["a"]) [("a", none)] [] rfl

/-- Helper: `evaluate` for the `date` field with no samples is exactly the
finite classifier score (both heuristic adjustments vanish). -/
theorem evaluateProfile_date_none (nb : NaiveBayes) (pf : FieldProfile)
    (header : String) (r : ℝ)
    (hscore : nb.scoreProfile pf header none = (r : EReal)) :
    evaluateProfile nb pf "date" header none = r := by
  simp only [evaluateProfile, hscore]
  rw [if_neg (by simp [EReal.coe_ne_bot, EReal.coe_ne_top] :
    ¬ ((r : EReal) = ⊥ ∨ (r : EReal) = ⊤))]
  rw [if_pos trivial, EReal.toReal_coe]
  rw [show analyseSamples none = ⟨0, 0, 0⟩ from rfl]
  norm_num

/-- C2, counterexample: on the single column "production day" every one of
the three resolver strategies fails for the field `date` (no explicit
mapping, no alias match, no keyword of `date` occurs in the header), so
`suggest_column_mapping` reports `date` missing — yet the default
probabilistic guesser WOULD have resolved it: its `guess` for `date` on that
column returns the column (the score `log(1/7) + 2 log(2/82) ≈ -9.4` clears
the `-20` floor and the margin is infinite).  The resolver never falls back
to the guesser. -/
theorem c2_counterexample :
    suggestColumnMapping ["production day"] none none =
      .ok ([], ["date", "employee", "process", "quantity", "duration_minutes",
        "machine", "process_type"]) ∧
    buildDefaultGuesser.map
        (fun g => (g.guess "date" [("production day", none)] []).map Prod.fst) =
      .ok (some (some "production day")) := by
  constructor
  · rfl
  · have hbuild : buildDefaultGuesser = .ok ⟨⟨DEFAULT_TRAINING_DATA.map
        (fun p => (p.1, FieldProfile.mk p.1 (trainingTokens p.2))), 64⟩⟩ := rfl
    rw [hbuild]
    rw [show Except.map
      (fun g : ColumnGuesser => (g.guess "date" [("production day", none)] []).map Prod.fst)
      (Except.ok (⟨⟨DEFAULT_TRAINING_DATA.map
        (fun p => (p.1, FieldProfile.mk p.1 (trainingTokens p.2))), 64⟩⟩ : ColumnGuesser)) =
      .ok ((ColumnGuesser.guess ⟨⟨DEFAULT_TRAINING_DATA.map
        (fun p => (p.1, FieldProfile.mk p.1 (trainingTokens p.2))), 64⟩⟩
          "date" [("production day", none)] []).map Prod.fst) from rfl]
    have hs : NaiveBayes.scoreProfile
        ⟨DEFAULT_TRAINING_DATA.map (fun p => (p.1, FieldProfile.mk p.1 (trainingTokens p.2))), 64⟩
        (FieldProfile.mk "date" (trainingTokens ["data produzione", "giorno commessa",
          "production date", "day", "data registrazione", "2024-01-01", "03/02/2024",
          "12.02.24"]))
        "production day" none =
        (((Real.log (1/7) + Real.log (2/82)) + Real.log (2/82) : ℝ) : EReal) := by
      rw [NaiveBayes.scoreProfile]
      rw [show tokenize "production day" ++ flattenSamples none = ["production", "day"]
        from rfl]
      rw [if_neg (by decide : ¬ (["production", "day"] : List String) = [])]
      rw [EReal.coe_eq_coe_iff]
      simp only [List.foldl_cons, List.foldl_nil]
      rw [show ((FieldProfile.mk "date" (trainingTokens ["data produzione", "giorno commessa",
          "production date", "day", "data registrazione", "2024-01-01", "03/02/2024",
          "12.02.24"])).tokens.count "production" + 1 : ℕ) = 2 from rfl]
      rw [show ((FieldProfile.mk "date" (trainingTokens ["data produzione", "giorno commessa",
          "production date", "day", "data registrazione", "2024-01-01", "03/02/2024",
          "12.02.24"])).tokens.count "day" + 1 : ℕ) = 2 from rfl]
      rw [show ((FieldProfile.mk "date" (trainingTokens ["data produzione", "giorno commessa",
          "production date", "day", "data registrazione", "2024-01-01", "03/02/2024",
          "12.02.24"])).tokens.length +
        (NaiveBayes.mk (DEFAULT_TRAINING_DATA.map
          (fun p => (p.1, FieldProfile.mk p.1 (trainingTokens p.2)))) 64).vocabularySize : ℕ)
        = 82 from rfl]
      rw [NaiveBayes.logPrior]
      rw [show ((NaiveBayes.mk (DEFAULT_TRAINING_DATA.map
        (fun p => (p.1, FieldProfile.mk p.1 (trainingTokens p.2)))) 64).profiles.length : ℕ)
        = 7 from rfl]
      push_cast
      norm_num
    have hr20 : (-20 : ℝ) ≤ (Real.log (1/7) + Real.log (2/82)) + Real.log (2/82) := by
      have h7 : Real.log 7 ≤ 3 * Real.log 2 := by
        calc Real.log 7 ≤ Real.log 8 := by
              rw [Real.log_le_log_iff (by norm_num) (by norm_num)]
              norm_num
          _ = Real.log (2 ^ 3) := by norm_num
          _ = 3 * Real.log 2 := by rw [Real.log_pow]; norm_num
      have h41 : Real.log 41 ≤ 6 * Real.log 2 := by
        calc Real.log 41 ≤ Real.log 64 := by
              rw [Real.log_le_log_iff (by norm_num) (by norm_num)]
              norm_num
          _ = Real.log (2 ^ 6) := by norm_num
          _ = 6 * Real.log 2 := by rw [Real.log_pow]; norm_num
      have h17 : Real.log ((1 : ℝ)/7) = -Real.log 7 := by rw [one_div, Real.log_inv]
      have h282 : Real.log ((2 : ℝ)/82) = -Real.log 41 := by
        rw [show (2 : ℝ)/82 = (41 : ℝ)⁻¹ by norm_num, Real.log_inv]
      rw [h17, h282]
      nlinarith [Real.log_two_lt_d9]
    have hev : evaluateProfile
        ⟨DEFAULT_TRAINING_DATA.map (fun p => (p.1, FieldProfile.mk p.1 (trainingTokens p.2))), 64⟩
        (FieldProfile.mk "date" (trainingTokens ["data produzione", "giorno commessa",
          "production date", "day", "data registrazione", "2024-01-01", "03/02/2024",
          "12.02.24"]))
        "date" "production day" none =
        (Real.log (1/7) + Real.log (2/82)) + Real.log (2/82) :=
      evaluateProfile_date_none _ _ _ _ hs
    have hgev : ColumnGuesser.evaluate ⟨⟨DEFAULT_TRAINING_DATA.map
        (fun p => (p.1, FieldProfile.mk p.1 (trainingTokens p.2))), 64⟩⟩
        "date" "production day" none =
        some ((Real.log (1/7) + Real.log (2/82)) + Real.log (2/82)) := by
      rw [ColumnGuesser.evaluate]
      rw [show (NaiveBayes.mk (DEFAULT_TRAINING_DATA.map
        (fun p => (p.1, FieldProfile.mk p.1 (trainingTokens p.2)))) 64).profiles.lookup "date" =
        some (FieldProfile.mk "date" (trainingTokens ["data produzione", "giorno commessa",
          "production date", "day", "data registrazione", "2024-01-01", "03/02/2024",
          "12.02.24"])) from rfl]
      rw [Option.map_some']
      rw [hev]
    rw [ColumnGuesser.guess]
    have hnil : "production day" ∉ ([] : List String) := List.not_mem_nil _
    simp only [guessLoop, if_neg hnil, hgev]
    rw [if_pos (EReal.bot_lt_coe _)]
    simp only [guessLoop, Option.map_some']
    have hmargin : ((((Real.log (1/7) + Real.log (2/82)) + Real.log (2/82) : ℝ)) : EReal) - ⊥ = ⊤ := by
      rw [sub_eq_add_neg, EReal.neg_bot, EReal.coe_add_top]
    rw [hmargin]
    rw [if_neg (by
      rintro (hbad | hbad)
      · rw [EReal.coe_lt_coe_iff] at hbad
        linarith
      · exact not_top_lt hbad)]

/-- C2, amended: the Column Resolver tries only the explicit-mapping, alias
exact-match and keyword substring strategies — every resolved column comes
from one of the three, in that order, and there is no probabilistic-guesser
fallback: a field none of the three strategies resolves is declared
unresolved even when the guesser would have resolved it (see the
counterexample). -/
theorem c2_amended_no_guesser_fallback
    (field : String) (availableColumns : List String)
    (columnMapping : Option (List (String × String)))
    (aliases : Option (List (String × List String))) (column : String)
    (hres : resolveColumnName field availableColumns columnMapping aliases = .ok column) :
    explicitCandidate columnMapping field = some column ∨
    (explicitCandidate columnMapping field = none ∧
      aliasMatch field availableColumns aliases = some column) ∨
    (explicitCandidate columnMapping field = none ∧
      aliasMatch field availableColumns aliases = none ∧
      keywordMatch field availableColumns = some column) := by
  rw [resolveColumnName] at hres
  cases hex : explicitCandidate columnMapping field with
  | some candidate =>
    rw [hex] at hres
    dsimp only at hres
    by_cases hmem : candidate ∈ availableColumns
    · rw [if_pos hmem] at hres
      exact Or.inl (congrArg some (Except.ok.inj hres))
    · rw [if_neg hmem] at hres
      exact absurd hres (by simp)
  | none =>
    rw [hex] at hres
    dsimp only at hres
    cases hal : aliasMatch field availableColumns aliases with
    | some c2 =>
      rw [hal] at hres
      dsimp only at hres
      exact Or.inr (Or.inl ⟨rfl, congrArg some (Except.ok.inj hres)⟩)
    | none =>
      rw [hal] at hres
      dsimp only at hres
      cases hkw : keywordMatch field availableColumns with
      | some c3 =>
        rw [hkw] at hres
        dsimp only at hres
        exact Or.inr (Or.inr ⟨rfl, rfl, congrArg some (Except.ok.inj hres)⟩)
      | none =>
        rw [hkw] at hres
        exact absurd hres (by simp)

/-- C2, witness: the amended theorem applied to a concrete successful
resolution (field `date` on columns `["Data"]`, resolved by alias). -/
theorem c2_witness :
    explicitCandidate none "date" = some "Data" ∨
    (explicitCandidate none "date" = none ∧
      aliasMatch "date" ["Data"] (some (mergedAliases none)) = some "Data") ∨
    (explicitCandidate none "date" = none ∧
      aliasMatch "date" ["Data"] (some (mergedAliases none)) = none ∧
      keywordMatch "date" ["Data"] = some "Data") :=
  c2_amended_no_guesser_fallback "date" ["Data"] none (some (mergedAliases none)) "Data"
    (by rfl)
